import Mathlib

/-!
# Verification of the senshukai streaming playback engine

Shallow embedding of the repository:
* the SRT subtitle parser (file `src/srt.go`),
* the playback model, its Bubble Tea update loop and the rasterizer
  (the application part of `main.go`),
* the audio player flag machine (`audio.go`),
* the two-phase frame-loading pipeline (`loadInitialFrames`,
  `loadRemainingFrames`).

Modelling conventions: Go `time.Duration` values are `Int` nanoseconds;
Go strings are Lean strings; the library functions `strings.Split` and
`strconv.Atoi` are reimplemented below on `List Char` so that every
definition is kernel-computable; the `float64` arithmetic of the
bilinear rasterizer is modelled exactly over `ℚ`, with the float-to-int
conversions of Go modelled as truncation toward zero.
-/

namespace Senshukai

/-! ## Durations (Go `time.Duration`, in nanoseconds) -/

/-- Value of `time.Millisecond` in nanoseconds. -/
def millisecond : Int := 1000000

/-- Value of `time.Second` in nanoseconds. -/
def second : Int := 1000 * millisecond

/-- Value of `time.Minute` in nanoseconds. -/
def minute : Int := 60 * second

/-- Value of `time.Hour` in nanoseconds. -/
def hour : Int := 60 * minute

/-! ## Go string library primitives -/

/-- Decimal value of a digit list (most significant first). -/
def digitsVal (cs : List Char) : Nat :=
  cs.foldl (fun a c => 10 * a + (c.toNat - 48)) 0

/-- Model of Go `strconv.Atoi`: an optional sign followed by at least
one decimal digit; `none` models a non-nil error.  (64-bit range
clamping is not modelled; no input in this development overflows.) -/
def goAtoi? (s : String) : Option Int :=
  match s.toList with
  | [] => none
  | c :: cs =>
    let p : Bool × List Char :=
      if c = '+' then (false, cs)
      else if c = '-' then (true, cs)
      else (false, c :: cs)
    if p.2 ≠ [] ∧ p.2.all (fun d => '0' ≤ d ∧ d ≤ '9') then
      some (if p.1 then -(digitsVal p.2 : Int) else (digitsVal p.2 : Int))
    else none

/-- Model of Go `strconv.Atoi` as used with its error discarded: the
returned value, which is `0` whenever the error is non-nil. -/
def goAtoi (s : String) : Int := (goAtoi? s).getD 0

/-- Test whether `pre` occurs at the head of `l`. -/
def startsWithList : List Char → List Char → Bool
  | [], _ => true
  | _ :: _, [] => false
  | a :: as, b :: bs => a = b && startsWithList as bs

/-- Fuelled worker for `goSplit`; the fuel bounds the number of steps
(every step either consumes at least one character or stops).  The
accumulator holds the current field, reversed. -/
def splitFuel (sep : List Char) : Nat → List Char → List Char → List (List Char)
  | 0, _, acc => [acc.reverse]
  | _ + 1, [], acc => [acc.reverse]
  | fuel + 1, c :: rest, acc =>
    if startsWithList sep (c :: rest) then
      acc.reverse :: splitFuel sep fuel (List.drop sep.length (c :: rest)) []
    else
      splitFuel sep fuel rest (c :: acc)

/-- Model of Go `strings.Split s sep` for a non-empty separator: split
around every non-overlapping, leftmost-first occurrence of `sep`.
Always returns a non-empty list. -/
def goSplit (s sep : String) : List String :=
  (splitFuel sep.toList (s.toList.length + 1) s.toList []).map String.mk

/-! ## SRT subtitle parser (`src/srt.go`) -/

/-- Record `Subtitle` from `srt.go`: ordinal, start/end offsets
(`time.Duration` nanoseconds) and caption text. -/
structure Subtitle where
  id : Int
  startTime : Int
  endTime : Int
  text : String
deriving DecidableEq, Repr

/-- The Go zero value of `Subtitle`. -/
def srtZero : Subtitle := ⟨0, 0, 0, ""⟩

/-- Function `parseSRTTime` from `srt.go`.  The string is split on
colons; with other than 3 parts Go returns `(0, error)` and the caller
assigns the `0` while discarding the error, modelled as `some 0`.
Otherwise the seconds field is split on a comma; Go then reads
`secMs[1]` unconditionally, which panics (index out of range) when the
field contains no comma — modelled as `none`. -/
def parseSRTTime (s : String) : Option Int :=
  match goSplit s ":" with
  | [p0, p1, p2] =>
    match goSplit p2 "," with
    | secs :: msPart :: _ =>
      some (hour * goAtoi p0 + minute * goAtoi p1 +
            second * goAtoi secs + millisecond * goAtoi msPart)
    | _ => none
  | _ => some 0

/-- Scanner state of `ParseSRT`: accumulated entries, the entry under
construction, and the 3-state step counter. -/
structure SRTScan where
  subtitles : List Subtitle
  current : Subtitle
  step : Nat
deriving DecidableEq, Repr

/-- One line of the `ParseSRT` scanner loop.  A `none` result
propagates a panic from `parseSRTTime`. -/
def srtStepLine (st : SRTScan) (line : String) : Option SRTScan :=
  match st.step with
  | 0 =>
    match goAtoi? line with
    | some n => some { st with current := { st.current with id := n }, step := 1 }
    | none => some st
  | 1 =>
    match goSplit line " --> " with
    | [a, b] =>
      match parseSRTTime a, parseSRTTime b with
      | some s, some e =>
        some { st with
               current := { st.current with startTime := s, endTime := e },
               step := 2 }
      | _, _ => none
    | _ => some st
  | 2 =>
    if line = "" then
      some { subtitles := st.subtitles ++ [st.current], current := srtZero, step := 0 }
    else
      some { st with current := { st.current with
        text := if st.current.text = "" then line
                else st.current.text ++ "\n" ++ line } }
  | _ => some st

/-- Run of the scanner over all input lines. -/
def srtRun : SRTScan → List String → Option SRTScan
  | st, [] => some st
  | st, l :: ls =>
    match srtStepLine st l with
    | none => none
    | some st' => srtRun st' ls

/-- Function `ParseSRT` from `srt.go`, on the lines of the file (the
`bufio.Scanner` line splitting is taken as given).  After the scan, a
trailing entry with a non-zero ordinal is appended.  A `none` result
models a runtime panic. -/
def ParseSRT (lines : List String) : Option (List Subtitle) :=
  match srtRun ⟨[], srtZero, 0⟩ lines with
  | none => none
  | some st =>
    some (if st.current.id ≠ 0 then st.subtitles ++ [st.current] else st.subtitles)

/-! ## Audio player flag machine (`audio.go`)

The `AudioPlayer` is modelled by its two boolean flags plus the
position of the underlying file/decoder (`pos`): `Stop` seeks the file
back to offset 0 and rebuilds the decoder, modelled by `pos := 0`.  The
oto device handle, the mutex and the channels are not part of the
state; each method body below is the flag logic of the source under the
lock. -/

/-- State of `AudioPlayer` from `audio.go`. -/
structure AudioPlayer where
  playing : Bool
  paused : Bool
  pos : Int
deriving DecidableEq, Repr

/-- State returned by `NewAudioPlayer`: not playing, not paused,
decoder at the start of the file. -/
def AudioPlayer.new : AudioPlayer := ⟨false, false, 0⟩

/-- Method `Play`: no-op when already playing, else set playing, clear
paused, start the device. -/
def AudioPlayer.Play (ap : AudioPlayer) : AudioPlayer :=
  if ap.playing then ap else { ap with playing := true, paused := false }

/-- Method `Pause`: no-op unless playing and not paused. -/
def AudioPlayer.Pause (ap : AudioPlayer) : AudioPlayer :=
  if ¬ap.playing ∨ ap.paused then ap else { ap with paused := true }

/-- Method `Resume`: no-op unless playing and paused. -/
def AudioPlayer.Resume (ap : AudioPlayer) : AudioPlayer :=
  if ¬ap.playing ∨ ¬ap.paused then ap else { ap with paused := false }

/-- Method `Stop`: no-op when not playing, else clear both flags, close
the player, seek the file to its beginning and rebuild the decoder
(`pos := 0`). -/
def AudioPlayer.Stop (ap : AudioPlayer) : AudioPlayer :=
  if ¬ap.playing then ap else { playing := false, paused := false, pos := 0 }

/-- Method `IsPlaying`. -/
def AudioPlayer.IsPlaying (ap : AudioPlayer) : Bool := ap.playing && !ap.paused

/-- Method `IsPaused`. -/
def AudioPlayer.IsPaused (ap : AudioPlayer) : Bool := ap.playing && ap.paused

/-- One poll iteration of the default branch of `monitorPlayback`:
`devicePlaying` is what `ap.player.IsPlaying()` reports.  When the
player is playing and not paused and the device has finished, the
monitor clears `playing`; in every other case it leaves the flags
alone. -/
def AudioPlayer.monitorStep (ap : AudioPlayer) (devicePlaying : Bool) : AudioPlayer :=
  if ¬ap.playing ∨ ap.paused then ap
  else if ¬devicePlaying then { ap with playing := false }
  else ap

/-- Consumption of `n` bytes of the decoder by the oto device while the
player is audibly playing: the device goroutine reads the decoder
continuously between the exported method calls, advancing the file
position.  This is how the decoder reaches end-of-track before the
monitor observes that the device finished. -/
def AudioPlayer.deviceAdvance (ap : AudioPlayer) (n : Int) : AudioPlayer :=
  if ap.playing && !ap.paused then { ap with pos := ap.pos + n } else ap

/-! ## Playback model (`Model` and `Model.Update` in the app file)

Field `lastUpdate` (a `time.Time` that is written once and never read)
and the `frameChan` channel handle are omitted from the state record.
The Bubble Tea messages are the tagged union `Msg`; `Update` also
returns commands (`tick()`, `loadInitialFrames`, …) whose effects are
modelled separately, so the state transition is `Model → Msg → Model`. -/

/-- Application state record `Model`. -/
structure Model where
  frames : List String
  currentFrame : Nat
  frameCount : Nat
  playing : Bool
  width : Int
  height : Int
  loading : Bool
  audioStarted : Bool
  audioPlayer : Option AudioPlayer
  audioEnabled : Bool
  subtitlesJA : List Subtitle
  subtitlesEN : List Subtitle
  subtitleMode : Nat
  currentSubtitle : String
  showControls : Bool
deriving DecidableEq, Repr

/-- Messages handled by `Model.Update`. -/
inductive Msg where
  | keyQ
  | keySpace
  | keyS
  | keyR
  | tick
  | framesLoaded (frames : List String)
  | frameLoaded (frame : String)
  | startLoading
  | windowSize (width height : Int)
deriving DecidableEq, Repr

/-- Linear first-match scan of the loop in `updateSubtitle`: the
caption is preset to the empty string, and the loop breaks at the first
entry whose closed interval from `StartTime` to `EndTime` contains
`videoTime`. -/
def findSubtitle (subs : List Subtitle) (videoTime : Int) : String :=
  match subs with
  | [] => ""
  | sub :: rest =>
    if sub.startTime ≤ videoTime ∧ videoTime ≤ sub.endTime then sub.text
    else findSubtitle rest videoTime

/-- Method `updateSubtitle`.  Go computes
`time.Duration(m.currentFrame) * (1000 / 60) * time.Millisecond`, in
which `1000 / 60` is constant integer division; the Lean division
`(1000 : Int) / 60` below has the same value, 16. -/
def Model.updateSubtitle (m : Model) : Model :=
  let videoTime : Int := (m.currentFrame : Int) * ((1000 : Int) / 60) * millisecond
  let m := { m with showControls := videoTime < 14600 * millisecond }
  if m.subtitleMode = 0 then { m with currentSubtitle := "" }
  else
    let subs := if m.subtitleMode = 1 then m.subtitlesJA else m.subtitlesEN
    { m with currentSubtitle := findSubtitle subs videoTime }

/-- Method `Update`.  `audioInit` is the result of `NewAudioPlayer()`
in the `framesLoadedMsg` branch: `some AudioPlayer.new` on success,
`none` when the constructor returned an error (a warning is printed and
the player stays nil); it is unused by every other branch. -/
def Model.Update (audioInit : Option AudioPlayer) (m : Model) : Msg → Model
  | .keyQ =>
    -- Close() is called, which leaves the {playing, paused} flags
    -- unchanged, and the program quits.
    m
  | .keySpace =>
    let m := { m with playing := !m.playing }
    match m.audioPlayer with
    | none => m
    | some ap =>
      if m.playing then
        if ap.IsPaused then { m with audioPlayer := some ap.Resume }
        else { m with audioPlayer := some ap.Play }
      else { m with audioPlayer := some ap.Pause }
  | .keyS =>
    { m with subtitleMode := (m.subtitleMode + 1) % 3, currentSubtitle := "" }
  | .keyR =>
    { m with currentFrame := 0,
             audioPlayer := m.audioPlayer.map (fun ap =>
               if m.playing then ap.Stop.Play else ap.Stop) }
  | .tick =>
    if m.playing ∧ m.frameCount > 0 then
      Model.updateSubtitle
        { m with currentFrame := (m.currentFrame + 1) % m.frameCount }
    else m
  | .framesLoaded frames =>
    let m := { m with frames := frames, frameCount := frames.length,
                      loading := true, playing := true }
    if m.audioEnabled ∧ ¬m.audioStarted then
      match audioInit with
      | none => { m with audioStarted := true }
      | some ap => { m with audioPlayer := some ap.Play, audioStarted := true }
    else m
  | .frameLoaded frame =>
    let frames := m.frames ++ [frame]
    { m with frames := frames, frameCount := frames.length }
  | .startLoading =>
    { m with loading := true }
  | .windowSize w h =>
    -- When frameCount = 0 and not loading, this branch also issues the
    -- loadInitialFrames/listenForFrames commands; the state change is
    -- only the stored size.
    { m with width := w, height := h }

/-- One tick transition; the tick branch of `Update` ignores the
`audioInit` argument. -/
def tickStep (m : Model) : Model := m.Update none .tick

/-- Function `initialModel`; `ja` and `en` are the already parsed
subtitle tracks (a failed parse logs an error and leaves the track
empty). -/
def initialModel (withAudio : Bool) (ja en : List Subtitle) : Model where
  frames := []
  currentFrame := 0
  frameCount := 0
  playing := false
  width := 80
  height := 60
  loading := false
  audioStarted := false
  audioPlayer := none
  audioEnabled := withAudio
  subtitlesJA := ja
  subtitlesEN := en
  subtitleMode := 0
  currentSubtitle := ""
  showControls := true

/-- Frame block rendered by `Model.View` when `frameCount ≠ 0`: the
frame at the cursor when the cursor is in range, else the defensive
"No frame to display" text. -/
def Model.viewFrameBlock (m : Model) : String :=
  if h : m.currentFrame < m.frames.length then m.frames.get ⟨m.currentFrame, h⟩
  else "No frame to display"

/-! ## Rasterizer (`pixelRuneSingle`, `bilinearInterpolate`) -/

/-- Go conversion of a float to an integer type: truncation toward
zero (floor for non-negative values, ceiling for negative ones). -/
def goTrunc (q : ℚ) : Int := if 0 ≤ q then ⌊q⌋ else ⌈q⌉

/-- A grayscale image: bounds and the luminance `img.At(x, y).Y` of
each pixel (`image.Gray` returns the zero colour outside bounds; every
access in this development is in bounds). -/
structure GrayImage where
  width : Nat
  height : Nat
  pixelAt : Int → Int → Nat

/-- Function `bilinearInterpolate` from the app file: truncate the
sample point to `(x0, y0)`, clamp the two `+1` neighbours to the last
valid column/row, fetch the four pixels, blend with the bilinear
weights, and truncate the blended value to `uint8`. -/
def bilinearInterpolate (img : GrayImage) (x y : ℚ) (maxW maxH : Int) : Int :=
  let x0 : Int := goTrunc x
  let y0 : Int := goTrunc y
  let x1 : Int := if x0 + 1 ≥ maxW then maxW - 1 else x0 + 1
  let y1 : Int := if y0 + 1 ≥ maxH then maxH - 1 else y0 + 1
  let p00 : ℚ := img.pixelAt x0 y0
  let p01 : ℚ := img.pixelAt x0 y1
  let p10 : ℚ := img.pixelAt x1 y0
  let p11 : ℚ := img.pixelAt x1 y1
  let fx : ℚ := x - (x0 : ℚ)
  let fy : ℚ := y - (y0 : ℚ)
  goTrunc (p00 * (1 - fx) * (1 - fy) + p10 * fx * (1 - fy) +
           p01 * (1 - fx) * fy + p11 * fx * fy)

/-- One output cell of the upscaling branch of `renderBlocksScaled`:
the sample point is `(x·srcW/targetW, y·srcH/targetH)` in exact
arithmetic, handed to `bilinearInterpolate` with the source bounds. -/
def upscaleSample (img : GrayImage) (x y targetWidth targetHeight : Nat) : Int :=
  bilinearInterpolate img
    ((x : ℚ) * (img.width : ℚ) / (targetWidth : ℚ))
    ((y : ℚ) * (img.height : ℚ) / (targetHeight : ℚ))
    (img.width : Int) (img.height : Int)

/-- Bilinear sample as the words of the spec describe it: identical to
`bilinearInterpolate` except that the blended luminance is rounded to
the nearest integer (half rounds up) instead of truncated.  Written
only for comparison with the source-derived definition. -/
def bilinearRoundSpec (img : GrayImage) (x y : ℚ) (maxW maxH : Int) : Int :=
  let x0 : Int := goTrunc x
  let y0 : Int := goTrunc y
  let x1 : Int := if x0 + 1 ≥ maxW then maxW - 1 else x0 + 1
  let y1 : Int := if y0 + 1 ≥ maxH then maxH - 1 else y0 + 1
  let p00 : ℚ := img.pixelAt x0 y0
  let p01 : ℚ := img.pixelAt x0 y1
  let p10 : ℚ := img.pixelAt x1 y0
  let p11 : ℚ := img.pixelAt x1 y1
  let fx : ℚ := x - (x0 : ℚ)
  let fy : ℚ := y - (y0 : ℚ)
  ⌊(p00 * (1 - fx) * (1 - fy) + p10 * fx * (1 - fy) +
    p01 * (1 - fx) * fy + p11 * fx * fy) + 1 / 2⌋

/-- Function `pixelRuneSingle`: the six-band luminance-to-glyph
table. -/
def pixelRuneSingle (pixel : Nat) : Char :=
  if pixel < 32 then '█'
  else if pixel < 64 then '▓'
  else if pixel < 96 then '▒'
  else if pixel < 128 then '░'
  else if pixel < 192 then ' '
  else ' '

/-- Visual density of each glyph of the palette, for stating
monotonicity: full block 4, dark shade 3, medium shade 2, light shade
1, space 0. -/
def glyphDensity (c : Char) : Nat :=
  if c = '█' then 4
  else if c = '▓' then 3
  else if c = '▒' then 2
  else if c = '░' then 1
  else 0

/-! ## Frame pipeline (`loadInitialFrames`, `loadRemainingFrames`)

Here `load i` abstracts `loadFrameAsASCII(getFrameFilename(i), w, h)`:
`some frame` on success, `none` when opening or decoding frame `i`
fails.  (`getFrameFilename` and `countFrames` live outside the core
source; only their results are abstracted as the `load` function and
the `totalFrames` count.) -/

/-- Common loop shape of both loaders: try indices `i, i+1, …` for at
most `n` iterations, stopping at the first failure (`break`). -/
def loadFrames (load : Nat → Option String) : Nat → Nat → List String
  | _, 0 => []
  | i, n + 1 =>
    match load i with
    | none => []
    | some frame => frame :: loadFrames load (i + 1) n

/-- Function `loadInitialFrames`: synchronously load frames 1–30 in
order, breaking at the first failure; the result is carried by one
`framesLoadedMsg`. -/
def loadInitialFrames (load : Nat → Option String) : List String :=
  loadFrames load 1 30

/-- Function `loadRemainingFrames`: the background goroutine loads
frames `31 … totalFrames` in order (`countFrames()` returned
`totalFrames`), breaking at the first failure, pushing each frame onto
the channel. -/
def loadRemainingFrames (load : Nat → Option String) (totalFrames : Nat) : List String :=
  loadFrames load 31 (totalFrames - 30)

/-- All frames the model ever appends, in order: the initial burst
(`framesLoadedMsg`) followed by the contents of the channel filled by
the background stream (`frameLoadedMsg`, appended in channel order). -/
def pipelineFrames (load : Nat → Option String) (totalFrames : Nat) : List String :=
  loadInitialFrames load ++ loadRemainingFrames load totalFrames

/-! ## Concrete instances and invariants used by the claims -/

/-- Two-digit decimal label of frame `i`, the rendered payload used by
the concrete frame-store instances. -/
def fCEx : Nat → String := fun i =>
  String.mk [Char.ofNat (48 + i / 10), Char.ofNat (48 + i % 10)]

/-- Frame store with 40 frames on disk in which loading frame 17 fails
(for instance a corrupt image): every other index up to 40 yields the
two-digit frame label. -/
def loadCEx : Nat → Option String := fun i =>
  if i = 17 ∨ 40 < i then none else some (fCEx i)

/-- Example image for the bilinear counterexample: 2×1, black pixel at
x = 0, white (255) pixel at x = 1. -/
def imgCEx : GrayImage := ⟨2, 1, fun x _ => if x = 1 then 255 else 0⟩

/-- Invariant exactly as the claim states it: the frame count matches
the length of the frame sequence and, whenever frames exist, the cursor
is in range. -/
def ClaimInv (m : Model) : Prop :=
  m.frameCount = m.frames.length ∧ (0 < m.frameCount → m.currentFrame < m.frameCount)

/-- Strengthened, inductive form of the cursor invariant: the count
matches the sequence length and the cursor is below `max frameCount 1`
(so it is 0 while no frames are loaded). -/
def CursorInv (m : Model) : Prop :=
  m.frameCount = m.frames.length ∧ m.currentFrame < max m.frameCount 1

/-- Flag invariant of the audio player: `paused` implies `playing`, so
the two booleans encode exactly the tri-state stopped / playing /
paused. -/
def AudioInv (ap : AudioPlayer) : Prop := ap.paused = true → ap.playing = true

instance (m : Model) : Decidable (ClaimInv m) := by
  unfold ClaimInv
  infer_instance

instance (m : Model) : Decidable (CursorInv m) := by
  unfold CursorInv
  infer_instance

instance (ap : AudioPlayer) : Decidable (AudioInv ap) := by
  unfold AudioInv
  infer_instance

/-- Model state used for the invariant-breaking counterexample: 35
frames loaded, cursor at 33 — a state satisfying the invariant of the
claim. -/
def mCEx : Model where
  frames := List.replicate 35 "f"
  currentFrame := 33
  frameCount := 35
  playing := true
  width := 80
  height := 60
  loading := true
  audioStarted := true
  audioPlayer := none
  audioEnabled := false
  subtitlesJA := []
  subtitlesEN := []
  subtitleMode := 0
  currentSubtitle := ""
  showControls := false

/-- Model state used for witnesses: playing at cursor 17 with 18
frames loaded and an actively playing audio player. -/
def mPlay : Model where
  frames := List.replicate 18 "f"
  currentFrame := 17
  frameCount := 18
  playing := true
  width := 80
  height := 60
  loading := true
  audioStarted := true
  audioPlayer := some ⟨true, false, 0⟩
  audioEnabled := true
  subtitlesJA := [⟨1, 0, 1000 * millisecond, "A"⟩, ⟨2, 500 * millisecond, 1500 * millisecond, "B"⟩]
  subtitlesEN := []
  subtitleMode := 1
  currentSubtitle := ""
  showControls := false

/-- Model state in which the audio track has already finished: like
`mPlay` (video playing) but the audio session is stopped with the
decoder at end-of-track (position 5) — the state reached from a fresh
player by Play, device consumption of the whole track, and the
completion monitor clearing the playing flag. -/
def mEnd : Model := { mPlay with audioPlayer := some ⟨false, false, 5⟩ }

/-! ## Theorems -/

set_option linter.unreachableTactic false in
set_option linter.unnecessarySeqFocus false in
set_option linter.unusedTactic false in
/-- Closed form of the glyph density across the bands, 32 luminance
units per band, capped at the blank glyph. -/
theorem glyphDensity_pixelRuneSingle (p : Nat) :
    glyphDensity (pixelRuneSingle p) = 4 - min (p / 32) 4 := by
  have g0 : glyphDensity '█' = 4 := by decide
  have g1 : glyphDensity '▓' = 3 := by decide
  have g2 : glyphDensity '▒' = 2 := by decide
  have g3 : glyphDensity '░' = 1 := by decide
  have g4 : glyphDensity ' ' = 0 := by decide
  simp only [pixelRuneSingle]
  split_ifs <;> simp only [g0, g1, g2, g3, g4] <;> omega

set_option linter.unreachableTactic false in
set_option linter.unnecessarySeqFocus false in
set_option linter.unusedTactic false in
/-- C5: for every luminance value 0–255, the glyph mapping follows the
six-band table exactly (block below 32, dark shade 32–63, medium shade
64–95, light shade 96–127, space 128–191 and space at 192 and above,
the two brightest bands both blank); glyph density is non-increasing in
the luminance; and the ten boundary values 31/32, 63/64, 95/96,
127/128, 191/192 each fall on the documented side. -/
theorem C5_glyph_table :
    (∀ p : Nat, p < 32 → pixelRuneSingle p = '█') ∧
    (∀ p : Nat, 32 ≤ p → p < 64 → pixelRuneSingle p = '▓') ∧
    (∀ p : Nat, 64 ≤ p → p < 96 → pixelRuneSingle p = '▒') ∧
    (∀ p : Nat, 96 ≤ p → p < 128 → pixelRuneSingle p = '░') ∧
    (∀ p : Nat, 128 ≤ p → p < 192 → pixelRuneSingle p = ' ') ∧
    (∀ p : Nat, 192 ≤ p → pixelRuneSingle p = ' ') ∧
    (∀ a b : Nat, a ≤ b →
      glyphDensity (pixelRuneSingle b) ≤ glyphDensity (pixelRuneSingle a)) ∧
    (pixelRuneSingle 31 = '█' ∧ pixelRuneSingle 32 = '▓' ∧
     pixelRuneSingle 63 = '▓' ∧ pixelRuneSingle 64 = '▒' ∧
     pixelRuneSingle 95 = '▒' ∧ pixelRuneSingle 96 = '░' ∧
     pixelRuneSingle 127 = '░' ∧ pixelRuneSingle 128 = ' ' ∧
     pixelRuneSingle 191 = ' ' ∧ pixelRuneSingle 192 = ' ') := by
  refine ⟨?_, ?_, ?_, ?_, ?_, ?_, ?_, by decide⟩
  · intro p h1
    simp only [pixelRuneSingle]; split_ifs <;> first | rfl | omega
  · intro p h1 h2
    simp only [pixelRuneSingle]; split_ifs <;> first | rfl | omega
  · intro p h1 h2
    simp only [pixelRuneSingle]; split_ifs <;> first | rfl | omega
  · intro p h1 h2
    simp only [pixelRuneSingle]; split_ifs <;> first | rfl | omega
  · intro p h1 h2
    simp only [pixelRuneSingle]; split_ifs <;> first | rfl | omega
  · intro p h1
    simp only [pixelRuneSingle]; split_ifs <;> first | rfl | omega
  · intro a b hab
    rw [glyphDensity_pixelRuneSingle, glyphDensity_pixelRuneSingle]
    have h := Nat.div_le_div_right (c := 32) hab
    omega

/-- Witness for C5 at concrete luminances. -/
theorem C5_glyph_table_witness :
    pixelRuneSingle 10 = '█' ∧ pixelRuneSingle 200 = ' ' ∧
    glyphDensity (pixelRuneSingle 200) ≤ glyphDensity (pixelRuneSingle 10) :=
  ⟨C5_glyph_table.1 10 (by decide),
   C5_glyph_table.2.2.2.2.2.1 200 (by decide),
   C5_glyph_table.2.2.2.2.2.2.1 10 200 (by decide)⟩

/-- C3 (code bug): contrary to the claim that SRT parsing never panics
on any timing-line string, `parseSRTTime` reads `secMs[1]` without
checking that the seconds field contains a comma, so the timing value
"00:00:29" panics with an index-out-of-range, and `ParseSRT` on a
caption source containing such a timing line aborts instead of skipping
the malformed line. -/
theorem C3_parse_time_panics :
    parseSRTTime "00:00:29" = none ∧
    ParseSRT ["1", "00:00:29 --> 00:00:31,000", "text", ""] = none := by
  decide

/-- C8: the well-formed entry "1\n00:00:29,082 --> 00:00:31,000\n
hello\nworld\n\n" parses to exactly one entry with ordinal 1, start
29082 ms, end 31000 ms and text "hello\nworld"; the same source without
the trailing blank line parses identically; and in general, whenever
the scanner finishes with an in-progress entry of non-zero ordinal,
that trailing entry is emitted. -/
theorem C8_srt_roundtrip :
    ParseSRT ["1", "00:00:29,082 --> 00:00:31,000", "hello", "world", ""] =
      some [⟨1, 29082 * millisecond, 31000 * millisecond, "hello\nworld"⟩] ∧
    ParseSRT ["1", "00:00:29,082 --> 00:00:31,000", "hello", "world"] =
      some [⟨1, 29082 * millisecond, 31000 * millisecond, "hello\nworld"⟩] ∧
    (∀ (lines : List String) (st : SRTScan),
      srtRun ⟨[], srtZero, 0⟩ lines = some st → st.current.id ≠ 0 →
      ParseSRT lines = some (st.subtitles ++ [st.current])) := by
  refine ⟨by decide, by decide, ?_⟩
  intro lines st h hid
  unfold ParseSRT
  rw [h]
  simp [hid]

/-- Witness for C8: a trailing entry with non-zero ordinal and no
terminator is emitted. -/
theorem C8_srt_roundtrip_witness :
    ParseSRT ["2", "00:00:01,000 --> 00:00:02,000", "x"] =
      some ([] ++ [⟨2, 1000 * millisecond, 2000 * millisecond, "x"⟩]) :=
  C8_srt_roundtrip.2.2 ["2", "00:00:01,000 --> 00:00:02,000", "x"]
    ⟨[], ⟨2, 1000 * millisecond, 2000 * millisecond, "x"⟩, 2⟩
    (by decide) (by decide)

/-- Method updateSubtitle only writes the caption and the controls
flag; every other field is untouched. -/
theorem updateSubtitle_fields (m : Model) :
    (m.updateSubtitle).frames = m.frames ∧
    (m.updateSubtitle).currentFrame = m.currentFrame ∧
    (m.updateSubtitle).frameCount = m.frameCount ∧
    (m.updateSubtitle).playing = m.playing := by
  by_cases h : m.subtitleMode = 0 <;> simp [Model.updateSubtitle, h]

/-- The caption written by updateSubtitle when subtitles are on: the
first-match scan of the active track at the nominal elapsed time of the
current frame. -/
theorem updateSubtitle_currentSubtitle (m : Model) (h : m.subtitleMode ≠ 0) :
    (m.updateSubtitle).currentSubtitle =
      findSubtitle (if m.subtitleMode = 1 then m.subtitlesJA else m.subtitlesEN)
        ((m.currentFrame : Int) * ((1000 : Int) / 60) * millisecond) := by
  simp [Model.updateSubtitle, h]

/-- C2: on a tick while playing with subtitles on, the caption is
recomputed as the linear first-match scan of the active-language list
at elapsed video time frameIndex × (1000/60) milliseconds (integer
division, as in the source) for the advanced frame index; a scan
returns the text of the first entry whose closed interval contains the
query, skips non-matching entries in list order, returns the empty
caption when nothing matches, and on the overlapping pair A (0–1000 ms)
and B (500–1500 ms) a query at 700 ms returns A. -/
theorem C2_subtitle_lookup :
    (∀ (a : Option AudioPlayer) (m : Model),
      m.playing = true → 0 < m.frameCount → m.subtitleMode ≠ 0 →
      (m.Update a .tick).currentSubtitle =
        findSubtitle (if m.subtitleMode = 1 then m.subtitlesJA else m.subtitlesEN)
          ((((m.currentFrame + 1) % m.frameCount : Nat) : Int) *
            ((1000 : Int) / 60) * millisecond)) ∧
    (∀ (sub : Subtitle) (rest : List Subtitle) (t : Int),
      sub.startTime ≤ t → t ≤ sub.endTime →
      findSubtitle (sub :: rest) t = sub.text) ∧
    (∀ (sub : Subtitle) (rest : List Subtitle) (t : Int),
      ¬(sub.startTime ≤ t ∧ t ≤ sub.endTime) →
      findSubtitle (sub :: rest) t = findSubtitle rest t) ∧
    (∀ (subs : List Subtitle) (t : Int),
      (∀ s ∈ subs, ¬(s.startTime ≤ t ∧ t ≤ s.endTime)) →
      findSubtitle subs t = "") ∧
    findSubtitle [⟨1, 0, 1000 * millisecond, "A"⟩,
                  ⟨2, 500 * millisecond, 1500 * millisecond, "B"⟩]
      (700 * millisecond) = "A" := by
  refine ⟨?_, ?_, ?_, ?_, by decide⟩
  · intro a m hp hc hmode
    have hred : m.Update a .tick =
        Model.updateSubtitle { m with currentFrame := (m.currentFrame + 1) % m.frameCount } := by
      simp [Model.Update, hp, hc]
    rw [hred, updateSubtitle_currentSubtitle _ (by simpa using hmode)]
  · intro sub rest t h1 h2
    simp [findSubtitle, h1, h2]
  · intro sub rest t h
    simp only [findSubtitle, if_neg h]
  · intro subs t h
    induction subs with
    | nil => rfl
    | cons sub rest ih =>
      have hs := h sub (List.mem_cons_self sub rest)
      simp only [findSubtitle, if_neg hs]
      exact ih fun s hsm => h s (List.mem_cons_of_mem _ hsm)

/-- Witness for C2 on the concrete playing model: after one tick the
cursor wraps to 0 and the caption is the scan of the JA track at 0 ms,
which is A. -/
theorem C2_subtitle_lookup_witness :
    (mPlay.Update none .tick).currentSubtitle =
      findSubtitle (if mPlay.subtitleMode = 1 then mPlay.subtitlesJA else mPlay.subtitlesEN)
        ((((mPlay.currentFrame + 1) % mPlay.frameCount : Nat) : Int) *
          ((1000 : Int) / 60) * millisecond) ∧
    findSubtitle [⟨1, 0, 1000 * millisecond, "A"⟩,
                  ⟨2, 500 * millisecond, 1500 * millisecond, "B"⟩]
      (700 * millisecond) = "A" :=
  ⟨C2_subtitle_lookup.1 none mPlay (by decide) (by decide) (by decide),
   C2_subtitle_lookup.2.2.2.2⟩

/-- One tick while playing with frames loaded advances the cursor by
one modulo the frame count and preserves the frame count and the
playing flag. -/
theorem tickStep_advance (m : Model) (hp : m.playing = true) (hc : 0 < m.frameCount) :
    (tickStep m).currentFrame = (m.currentFrame + 1) % m.frameCount ∧
    (tickStep m).frameCount = m.frameCount ∧
    (tickStep m).playing = true := by
  have hred : tickStep m =
      Model.updateSubtitle { m with currentFrame := (m.currentFrame + 1) % m.frameCount } := by
    simp [tickStep, Model.Update, hp, hc]
  have h := updateSubtitle_fields { m with currentFrame := (m.currentFrame + 1) % m.frameCount }
  rw [hred]
  exact ⟨h.2.1, h.2.2.1, by rw [h.2.2.2]; exact hp⟩

/-- Iterating the tick from a valid cursor adds the number of ticks to
the cursor modulo the frame count. -/
theorem tickStep_iter (m : Model) (hp : m.playing = true) (hc : 0 < m.frameCount)
    (hcur : m.currentFrame < m.frameCount) : ∀ k : Nat,
    (tickStep^[k] m).currentFrame = (m.currentFrame + k) % m.frameCount ∧
    (tickStep^[k] m).frameCount = m.frameCount ∧
    (tickStep^[k] m).playing = true := by
  intro k
  induction k with
  | zero => exact ⟨(Nat.mod_eq_of_lt hcur).symm, rfl, hp⟩
  | succ k ih =>
    obtain ⟨h1, h2, h3⟩ := ih
    rw [Function.iterate_succ_apply']
    have h := tickStep_advance (tickStep^[k] m) h3 (by rw [h2]; exact hc)
    refine ⟨?_, by rw [h.2.1, h2], h.2.2⟩
    rw [h.1, h1, h2, Nat.mod_add_mod, Nat.add_assoc]

/-- C7: while playing with F > 0 loaded frames held fixed and a cursor
in range, one tick advances the cursor to (cursor + 1) mod F, and F
consecutive ticks return the cursor to its starting value (exact cyclic
wraparound, no clamping). -/
theorem C7_cyclic_advance (m : Model) (F : Nat)
    (hp : m.playing = true) (hF : m.frameCount = F) (h0 : 0 < F)
    (hcur : m.currentFrame < F) :
    (tickStep m).currentFrame = (m.currentFrame + 1) % F ∧
    (tickStep^[F] m).currentFrame = m.currentFrame := by
  subst hF
  refine ⟨(tickStep_advance m hp h0).1, ?_⟩
  rw [(tickStep_iter m hp h0 hcur m.frameCount).1, Nat.add_mod_right,
    Nat.mod_eq_of_lt hcur]

/-- Witness for C7 on the concrete playing model with 18 frames at
cursor 17. -/
theorem C7_cyclic_advance_witness :
    (tickStep mPlay).currentFrame = (mPlay.currentFrame + 1) % 18 ∧
    (tickStep^[18] mPlay).currentFrame = mPlay.currentFrame :=
  C7_cyclic_advance mPlay 18 (by decide) (by decide) (by decide) (by decide)

/-- C6 counterexample: when the audio session has already stopped (the
completion monitor cleared the playing flag with the decoder at
end-of-track, a state reached from a fresh player by Play, device
consumption, and one monitor poll), reset while the model is playing
hits the not-playing guard of Stop, so the seek to the beginning never
runs and Play resumes from the end-of-track position 5, not 0 — the
audio track is not restarted from its beginning as the claim states. -/
theorem C6_counterexample :
    (AudioPlayer.new.Play.deviceAdvance 5).monitorStep false = ⟨false, false, 5⟩ ∧
    (mEnd.Update none .keyR).currentFrame = 0 ∧
    (mEnd.Update none .keyR).playing = true ∧
    mEnd.audioPlayer = some ⟨false, false, 5⟩ ∧
    (mEnd.Update none .keyR).audioPlayer = some ⟨true, false, 5⟩ := by
  decide

/-- C6 as amended: the reset command sets the cursor to 0 and leaves
the playing flag and every other model field (frames, counts, sizes,
subtitle state, audio bookkeeping flags) unchanged; the audio player is
stopped and then restarted exactly when the model is playing; when the
audio session is still active (playing, whether or not paused), the
stop seeks the track back to its beginning, so the result sits at
position 0 and is audibly playing iff the model is playing; but when
the audio had already stopped, the stop guard skips the seek and the
restart resumes from the current decoder position instead of the
beginning. -/
theorem C6_reset_amended (a : Option AudioPlayer) (m : Model) :
    (m.Update a .keyR).currentFrame = 0 ∧
    (m.Update a .keyR).playing = m.playing ∧
    (m.Update a .keyR).frames = m.frames ∧
    (m.Update a .keyR).frameCount = m.frameCount ∧
    (m.Update a .keyR).loading = m.loading ∧
    (m.Update a .keyR).width = m.width ∧
    (m.Update a .keyR).height = m.height ∧
    (m.Update a .keyR).audioStarted = m.audioStarted ∧
    (m.Update a .keyR).audioEnabled = m.audioEnabled ∧
    (m.Update a .keyR).subtitlesJA = m.subtitlesJA ∧
    (m.Update a .keyR).subtitlesEN = m.subtitlesEN ∧
    (m.Update a .keyR).subtitleMode = m.subtitleMode ∧
    (m.Update a .keyR).currentSubtitle = m.currentSubtitle ∧
    (m.Update a .keyR).showControls = m.showControls ∧
    (m.Update a .keyR).audioPlayer =
      m.audioPlayer.map (fun ap => if m.playing then ap.Stop.Play else ap.Stop) ∧
    (∀ ap : AudioPlayer, m.audioPlayer = some ap → ap.playing = true →
      ∃ ap' : AudioPlayer, (m.Update a .keyR).audioPlayer = some ap' ∧
        ap'.pos = 0 ∧ ap'.IsPlaying = m.playing) ∧
    (∀ ap : AudioPlayer, m.audioPlayer = some ap → ap.playing = false →
      ∃ ap' : AudioPlayer, (m.Update a .keyR).audioPlayer = some ap' ∧
        ap'.pos = ap.pos ∧ ap'.IsPlaying = m.playing) := by
  refine ⟨rfl, rfl, rfl, rfl, rfl, rfl, rfl, rfl, rfl, rfl, rfl, rfl, rfl, rfl, rfl,
    ?_, ?_⟩
  · intro ap hap hpl
    refine ⟨if m.playing then ap.Stop.Play else ap.Stop, ?_, ?_, ?_⟩
    · show (m.audioPlayer.map fun ap => if m.playing then ap.Stop.Play else ap.Stop) = _
      rw [hap, Option.map_some']
    · rcases ap with ⟨pl, pa, pos⟩
      cases m.playing <;>
        simp_all [AudioPlayer.Stop, AudioPlayer.Play]
    · rcases ap with ⟨pl, pa, pos⟩
      cases m.playing <;> cases pa <;>
        simp_all [AudioPlayer.Stop, AudioPlayer.Play, AudioPlayer.IsPlaying]
  · intro ap hap hpl
    refine ⟨if m.playing then ap.Stop.Play else ap.Stop, ?_, ?_, ?_⟩
    · show (m.audioPlayer.map fun ap => if m.playing then ap.Stop.Play else ap.Stop) = _
      rw [hap, Option.map_some']
    · rcases ap with ⟨pl, pa, pos⟩
      cases m.playing <;>
        simp_all [AudioPlayer.Stop, AudioPlayer.Play]
    · rcases ap with ⟨pl, pa, pos⟩
      cases m.playing <;> cases pa <;>
        simp_all [AudioPlayer.Stop, AudioPlayer.Play, AudioPlayer.IsPlaying]

/-- Witness for C6 as amended: reset on the concrete model playing at
cursor 17 with an active audio player (track restarts at position 0),
and on the same model with the audio already stopped at end-of-track
(position is preserved). -/
theorem C6_reset_amended_witness :
    (mPlay.Update none .keyR).currentFrame = 0 ∧
    (mPlay.Update none .keyR).playing = mPlay.playing ∧
    (∃ ap' : AudioPlayer, (mPlay.Update none .keyR).audioPlayer = some ap' ∧
      ap'.pos = 0 ∧ ap'.IsPlaying = mPlay.playing) ∧
    (∃ ap' : AudioPlayer, (mEnd.Update none .keyR).audioPlayer = some ap' ∧
      ap'.pos = (⟨false, false, 5⟩ : AudioPlayer).pos ∧ ap'.IsPlaying = mEnd.playing) :=
  ⟨(C6_reset_amended none mPlay).1, (C6_reset_amended none mPlay).2.1,
   (C6_reset_amended none mPlay).2.2.2.2.2.2.2.2.2.2.2.2.2.2.2.1
     ⟨true, false, 0⟩ rfl rfl,
   (C6_reset_amended none mEnd).2.2.2.2.2.2.2.2.2.2.2.2.2.2.2.2
     ⟨false, false, 5⟩ rfl rfl⟩

/-- C10: the flags of the audio player satisfy paused ⇒ playing, so
they encode exactly the tri-state stopped / playing / paused; IsPlaying
and IsPaused are never both true; every operation preserves the
invariant; Play is a no-op when already playing, Pause is a no-op
unless playing and not paused, Resume is a no-op unless playing and
paused, Stop clears both flags, and the completion monitor only clears
`playing`, and only from the playing-and-not-paused state. -/
theorem C10_audio_tristate :
    AudioInv AudioPlayer.new ∧
    (∀ ap : AudioPlayer, AudioInv ap →
      AudioInv ap.Play ∧ AudioInv ap.Pause ∧ AudioInv ap.Resume ∧
      AudioInv ap.Stop ∧ ∀ d : Bool, AudioInv (ap.monitorStep d)) ∧
    (∀ ap : AudioPlayer, ¬(ap.IsPlaying = true ∧ ap.IsPaused = true)) ∧
    (∀ ap : AudioPlayer, ap.playing = true → ap.Play = ap) ∧
    (∀ ap : AudioPlayer, ¬(ap.playing = true ∧ ap.paused = false) → ap.Pause = ap) ∧
    (∀ ap : AudioPlayer, ¬(ap.playing = true ∧ ap.paused = true) → ap.Resume = ap) ∧
    (∀ ap : AudioPlayer, AudioInv ap →
      ap.Stop.playing = false ∧ ap.Stop.paused = false) ∧
    (∀ (ap : AudioPlayer) (d : Bool),
      ¬(ap.playing = true ∧ ap.paused = false) → ap.monitorStep d = ap) ∧
    (∀ ap : AudioPlayer, ap.playing = true → ap.paused = false →
      ap.monitorStep false = { ap with playing := false } ∧
      ap.monitorStep true = ap) := by
  refine ⟨?_, ?_, ?_, ?_, ?_, ?_, ?_, ?_, ?_⟩
  · simp [AudioInv, AudioPlayer.new]
  · rintro ⟨pl, pa, pos⟩ hinv
    refine ⟨?_, ?_, ?_, ?_, fun d => ?_⟩
    · cases pl <;> cases pa <;> simp_all [AudioInv, AudioPlayer.Play]
    · cases pl <;> cases pa <;> simp_all [AudioInv, AudioPlayer.Pause]
    · cases pl <;> cases pa <;> simp_all [AudioInv, AudioPlayer.Resume]
    · cases pl <;> cases pa <;> simp_all [AudioInv, AudioPlayer.Stop]
    · cases pl <;> cases pa <;> cases d <;>
        simp_all [AudioInv, AudioPlayer.monitorStep]
  · rintro ⟨pl, pa, pos⟩ ⟨h1, h2⟩
    cases pl <;> cases pa <;>
      simp_all [AudioPlayer.IsPlaying, AudioPlayer.IsPaused]
  · rintro ⟨pl, pa, pos⟩ h
    simp_all [AudioPlayer.Play]
  · rintro ⟨pl, pa, pos⟩ h
    cases pl <;> cases pa <;> simp_all [AudioPlayer.Pause]
  · rintro ⟨pl, pa, pos⟩ h
    cases pl <;> cases pa <;> simp_all [AudioPlayer.Resume]
  · rintro ⟨pl, pa, pos⟩ hinv
    cases pl <;> cases pa <;> simp_all [AudioInv, AudioPlayer.Stop]
  · rintro ⟨pl, pa, pos⟩ d h
    cases pl <;> cases pa <;> simp_all [AudioPlayer.monitorStep]
  · rintro ⟨pl, pa, pos⟩ h1 h2
    cases pl <;> cases pa <;> simp_all [AudioPlayer.monitorStep]

/-- Witness for C10 at concrete audio states. -/
theorem C10_audio_tristate_witness :
    (AudioInv (AudioPlayer.Play AudioPlayer.new) ∧
      AudioInv (AudioPlayer.Pause AudioPlayer.new) ∧
      AudioInv (AudioPlayer.Resume AudioPlayer.new) ∧
      AudioInv (AudioPlayer.Stop AudioPlayer.new) ∧
      ∀ d : Bool, AudioInv (AudioPlayer.monitorStep AudioPlayer.new d)) ∧
    AudioPlayer.Play ⟨true, false, 5⟩ = ⟨true, false, 5⟩ :=
  ⟨C10_audio_tristate.2.1 AudioPlayer.new (by simp [AudioInv, AudioPlayer.new]),
   C10_audio_tristate.2.2.2.1 ⟨true, false, 5⟩ rfl⟩

/-- Loading loop with enough fuel stops exactly at the first failing
index: when every index in `range' i n` succeeds and index `i + n`
fails, the loop returns precisely the `n` loaded frames. -/
theorem loadFrames_break (load : Nat → Option String) (f : Nat → String) :
    ∀ (n fuel i : Nat), n < fuel →
    (∀ j ∈ List.range' i n, load j = some (f j)) →
    load (i + n) = none →
    loadFrames load i fuel = (List.range' i n).map f := by
  intro n
  induction n with
  | zero =>
    intro fuel i hfuel _ hnone
    obtain ⟨fuel, rfl⟩ : ∃ m, fuel = m + 1 := ⟨fuel - 1, by omega⟩
    have h0 : load i = none := by simpa using hnone
    simp [loadFrames, h0]
  | succ n ih =>
    intro fuel i hfuel hsome hnone
    obtain ⟨fuel, rfl⟩ : ∃ m, fuel = m + 1 := ⟨fuel - 1, by omega⟩
    have h0 : load i = some (f i) := by
      refine hsome i ?_
      rw [List.mem_range'_1]
      omega
    have hrec : loadFrames load (i + 1) fuel = (List.range' (i + 1) n).map f := by
      refine ih fuel (i + 1) (by omega) ?_ ?_
      · intro j hj
        refine hsome j ?_
        rw [List.mem_range'_1] at hj ⊢
        omega
      · have he : i + 1 + n = i + (n + 1) := by omega
        rw [he]
        exact hnone
    simp [loadFrames, h0, hrec, List.range'_succ]

/-- C1 counterexample: on a disk with 40 frames in which only frame 17
fails to load, the initial burst holds frames 1–16, yet the full
pipeline delivers 26 frames — frame "31" arrives right after frame
"16" — so the frame count exceeds 16 and a gap appears, contradicting
the claim. -/
theorem C1_counterexample :
    (loadInitialFrames loadCEx).length = 16 ∧
    (pipelineFrames loadCEx 40).length = 26 ∧
    (pipelineFrames loadCEx 40).getD 15 "" = "16" ∧
    (pipelineFrames loadCEx 40).getD 16 "" = "31" := by
  decide

/-- C1 as amended: when frames 1–16 load and frame 17 fails, the
initial burst is exactly frames 1–16 (16 frames, no frame past 16 from
the burst); the pipeline output is that burst followed by the
independent background stream, which starts at frame 31 regardless of
the burst failure; and within the background phase a failure also stops
that phase permanently at its first failing index. -/
theorem C1_pipeline_amended (load : Nat → Option String) (f : Nat → String) (total : Nat)
    (hsome : ∀ j ∈ List.range' 1 16, load j = some (f j))
    (hfail : load 17 = none) :
    loadInitialFrames load = (List.range' 1 16).map f ∧
    (loadInitialFrames load).length = 16 ∧
    pipelineFrames load total = (List.range' 1 16).map f ++ loadRemainingFrames load total ∧
    (∀ n, n < total - 30 →
      (∀ j ∈ List.range' 31 n, load j = some (f j)) →
      load (31 + n) = none →
      loadRemainingFrames load total = (List.range' 31 n).map f) := by
  have hburst : loadInitialFrames load = (List.range' 1 16).map f :=
    loadFrames_break load f 16 30 1 (by omega) hsome hfail
  refine ⟨hburst, by simp [hburst], by simp [pipelineFrames, hburst], ?_⟩
  intro n hn hsome31 hnone31
  exact loadFrames_break load f n (total - 30) 31 hn hsome31 hnone31

/-- Witness for C1 as amended, on the concrete 40-frame store with
frame 17 corrupt. -/
theorem C1_pipeline_amended_witness :
    loadInitialFrames loadCEx = (List.range' 1 16).map fCEx ∧
    (loadInitialFrames loadCEx).length = 16 :=
  ⟨(C1_pipeline_amended loadCEx fCEx 40 (by decide) (by decide)).1,
   (C1_pipeline_amended loadCEx fCEx 40 (by decide) (by decide)).2.1⟩

/-- C9 counterexample: from a state satisfying the invariant of the
claim (35 frames, cursor 33), processing an initial-burst arrival
carrying 30 frames breaks the invariant — the update keeps the stale
cursor — and the rendering projection then takes the defensive
"no frame" branch, so not every transition preserves the invariant. -/
theorem C9_counterexample :
    ClaimInv mCEx ∧
    ¬ ClaimInv (mCEx.Update none (.framesLoaded (List.replicate 30 "f"))) ∧
    (mCEx.Update none (.framesLoaded (List.replicate 30 "f"))).viewFrameBlock =
      "No frame to display" := by
  decide

/-- C9 as amended: the initial state satisfies the (strengthened)
cursor invariant; every transition other than an initial-burst arrival
preserves it; an initial-burst arrival preserves it whenever it is
processed with the cursor at 0, which is how it arrives in the startup
sequence; the strengthened invariant implies the invariant of the
claim; and in every state satisfying the invariant of the claim with
frames loaded, the rendering projection shows the frame at the cursor,
never the "no frame" branch. -/
theorem C9_invariant_amended :
    (∀ (withAudio : Bool) (ja en : List Subtitle),
      CursorInv (initialModel withAudio ja en)) ∧
    (∀ (a : Option AudioPlayer) (m : Model) (msg : Msg),
      (∀ fs, msg ≠ Msg.framesLoaded fs) → CursorInv m → CursorInv (m.Update a msg)) ∧
    (∀ (a : Option AudioPlayer) (m : Model) (fs : List String),
      m.currentFrame = 0 → CursorInv (m.Update a (.framesLoaded fs))) ∧
    (∀ m : Model, CursorInv m → ClaimInv m) ∧
    (∀ m : Model, ClaimInv m → 0 < m.frameCount →
      ∃ h : m.currentFrame < m.frames.length,
        m.viewFrameBlock = m.frames.get ⟨m.currentFrame, h⟩) := by
  refine ⟨?_, ?_, ?_, ?_, ?_⟩
  · intro withAudio ja en
    exact ⟨rfl, Nat.zero_lt_one⟩
  · intro a m msg hmsg hinv
    obtain ⟨h1, h2⟩ := hinv
    cases msg with
    | keyQ => exact ⟨h1, h2⟩
    | keySpace =>
      simp only [Model.Update]
      cases m.audioPlayer with
      | none => exact ⟨h1, h2⟩
      | some ap =>
        dsimp only
        split
        · split <;> exact ⟨h1, h2⟩
        · exact ⟨h1, h2⟩
    | keyS => exact ⟨h1, h2⟩
    | keyR =>
      exact ⟨h1, lt_of_lt_of_le Nat.zero_lt_one (le_max_right _ _)⟩
    | tick =>
      simp only [Model.Update]
      split
      · rename_i hcond
        have hf := updateSubtitle_fields
          { m with currentFrame := (m.currentFrame + 1) % m.frameCount }
        constructor
        · rw [hf.2.2.1, hf.1]
          exact h1
        · rw [hf.2.1, hf.2.2.1]
          have hcnt : 0 < m.frameCount := hcond.2
          calc (m.currentFrame + 1) % m.frameCount < m.frameCount :=
                Nat.mod_lt _ hcnt
            _ ≤ max m.frameCount 1 := le_max_left _ _
      · exact ⟨h1, h2⟩
    | framesLoaded fs => exact absurd rfl (hmsg fs)
    | frameLoaded f =>
      refine ⟨rfl, ?_⟩
      have hl : (m.frames ++ [f]).length = m.frames.length + 1 := by simp
      simp only [Model.Update, hl]
      omega
    | startLoading => exact ⟨h1, h2⟩
    | windowSize w h => exact ⟨h1, h2⟩
  · intro a m fs h0
    simp only [Model.Update]
    split
    · cases a with
      | none =>
        exact ⟨rfl, by rw [h0]; exact lt_of_lt_of_le Nat.zero_lt_one (le_max_right _ _)⟩
      | some ap =>
        exact ⟨rfl, by rw [h0]; exact lt_of_lt_of_le Nat.zero_lt_one (le_max_right _ _)⟩
    · exact ⟨rfl, by rw [h0]; exact lt_of_lt_of_le Nat.zero_lt_one (le_max_right _ _)⟩
  · intro m hinv
    exact ⟨hinv.1, fun hc => lt_of_lt_of_le hinv.2 (le_of_eq (Nat.max_eq_left hc))⟩
  · intro m hinv hc
    have hlt : m.currentFrame < m.frames.length := hinv.1 ▸ hinv.2 hc
    refine ⟨hlt, ?_⟩
    unfold Model.viewFrameBlock
    exact dif_pos hlt

/-- Witness for C9 as amended: the initial model, a tick on the
concrete playing model, a burst arrival at cursor 0, and the rendering
projection on the concrete playing model. -/
theorem C9_invariant_amended_witness :
    CursorInv (initialModel false [] []) ∧
    CursorInv (mPlay.Update none .tick) ∧
    CursorInv ((initialModel false [] []).Update none
      (.framesLoaded (List.replicate 30 "f"))) ∧
    (∃ h : mPlay.currentFrame < mPlay.frames.length,
      mPlay.viewFrameBlock = mPlay.frames.get ⟨mPlay.currentFrame, h⟩) :=
  ⟨C9_invariant_amended.1 false [] [],
   C9_invariant_amended.2.1 none mPlay .tick (fun fs => by simp) (by decide),
   C9_invariant_amended.2.2.1 none (initialModel false [] [])
     (List.replicate 30 "f") rfl,
   C9_invariant_amended.2.2.2.2 mPlay (by decide) (by decide)⟩

/-- Truncation toward zero agrees with the floor on non-negative
rationals. -/
theorem goTrunc_eq_floor (q : ℚ) (h : 0 ≤ q) : goTrunc q = ⌊q⌋ := if_pos h

/-- C4 counterexample: the white-and-black 2×1 image upscaled to 4×1
samples cell (1, 0) at source coordinate 1/2, whose exact blend is
127.5; the code truncates it to 127, while the sample rounded to the
nearest integer as the claim states would be 128. -/
theorem C4_counterexample :
    upscaleSample imgCEx 1 0 4 1 = 127 ∧
    bilinearRoundSpec imgCEx ((1 : ℚ) * 2 / 4) 0 2 1 = 128 := by
  constructor
  · simp only [upscaleSample, bilinearInterpolate, goTrunc, imgCEx]
    norm_num
  · simp only [bilinearRoundSpec, goTrunc, imgCEx]
    norm_num

/-- C4 as amended: for non-negative sample coordinates (the only ones
the rasterizer produces), the bilinear sample is taken at the claimed
coordinates (upscale cell (x, y) maps to (x·srcW/targetW,
y·srcH/targetH)), from the four neighbours with the +1 neighbour
clamped to the last valid row/column, blended with the claimed weights
— but the blended luminance is truncated (floored) to an integer, not
rounded to the nearest one. -/
theorem C4_bilinear_amended (img : GrayImage) (x y : ℚ) (maxW maxH : Int)
    (hx : 0 ≤ x) (hy : 0 ≤ y) :
    bilinearInterpolate img x y maxW maxH =
      ⌊(img.pixelAt ⌊x⌋ ⌊y⌋ : ℚ) * (1 - (x - ⌊x⌋)) * (1 - (y - ⌊y⌋)) +
        (img.pixelAt (min (⌊x⌋ + 1) (maxW - 1)) ⌊y⌋ : ℚ) *
          (x - ⌊x⌋) * (1 - (y - ⌊y⌋)) +
        (img.pixelAt ⌊x⌋ (min (⌊y⌋ + 1) (maxH - 1)) : ℚ) *
          (1 - (x - ⌊x⌋)) * (y - ⌊y⌋) +
        (img.pixelAt (min (⌊x⌋ + 1) (maxW - 1)) (min (⌊y⌋ + 1) (maxH - 1)) : ℚ) *
          (x - ⌊x⌋) * (y - ⌊y⌋)⌋ ∧
    (∀ cx cy tw th : Nat,
      upscaleSample img cx cy tw th =
        bilinearInterpolate img ((cx : ℚ) * img.width / tw)
          ((cy : ℚ) * img.height / th) img.width img.height) := by
  refine ⟨?_, fun cx cy tw th => rfl⟩
  have hminx : (if ⌊x⌋ + 1 ≥ maxW then maxW - 1 else ⌊x⌋ + 1) =
      min (⌊x⌋ + 1) (maxW - 1) := by
    split_ifs with h
    · exact (min_eq_right (by omega)).symm
    · exact (min_eq_left (by omega)).symm
  have hminy : (if ⌊y⌋ + 1 ≥ maxH then maxH - 1 else ⌊y⌋ + 1) =
      min (⌊y⌋ + 1) (maxH - 1) := by
    split_ifs with h
    · exact (min_eq_right (by omega)).symm
    · exact (min_eq_left (by omega)).symm
  have hfx0 : (0 : ℚ) ≤ x - ⌊x⌋ := sub_nonneg.2 (Int.floor_le x)
  have hfx1 : x - ⌊x⌋ ≤ 1 := by
    have := Int.lt_floor_add_one x
    linarith
  have hfy0 : (0 : ℚ) ≤ y - ⌊y⌋ := sub_nonneg.2 (Int.floor_le y)
  have hfy1 : y - ⌊y⌋ ≤ 1 := by
    have := Int.lt_floor_add_one y
    linarith
  simp only [bilinearInterpolate]
  rw [goTrunc_eq_floor _ hx, goTrunc_eq_floor _ hy, hminx, hminy, goTrunc_eq_floor]
  have hw : ∀ p : Nat, ∀ a b : ℚ, 0 ≤ a → 0 ≤ b → 0 ≤ (p : ℚ) * a * b :=
    fun p a b ha hb => mul_nonneg (mul_nonneg (Nat.cast_nonneg p) ha) hb
  refine add_nonneg (add_nonneg (add_nonneg ?_ ?_) ?_) ?_
  · exact hw _ _ _ (by linarith) (by linarith)
  · exact hw _ _ _ hfx0 (by linarith)
  · exact hw _ _ _ (by linarith) hfy0
  · exact hw _ _ _ hfx0 hfy0

/-- Witness for C4 as amended at the counterexample cell: sample
coordinate 1/2 in the 2×1 image. -/
theorem C4_bilinear_amended_witness :
    (bilinearInterpolate imgCEx (1 / 2) 0 2 1 =
      ⌊(imgCEx.pixelAt ⌊(1 / 2 : ℚ)⌋ ⌊(0 : ℚ)⌋ : ℚ) *
          (1 - (1 / 2 - (⌊(1 / 2 : ℚ)⌋ : ℚ))) * (1 - (0 - (⌊(0 : ℚ)⌋ : ℚ))) +
        (imgCEx.pixelAt (min (⌊(1 / 2 : ℚ)⌋ + 1) (2 - 1)) ⌊(0 : ℚ)⌋ : ℚ) *
          (1 / 2 - (⌊(1 / 2 : ℚ)⌋ : ℚ)) * (1 - (0 - (⌊(0 : ℚ)⌋ : ℚ))) +
        (imgCEx.pixelAt ⌊(1 / 2 : ℚ)⌋ (min (⌊(0 : ℚ)⌋ + 1) (1 - 1)) : ℚ) *
          (1 - (1 / 2 - (⌊(1 / 2 : ℚ)⌋ : ℚ))) * (0 - (⌊(0 : ℚ)⌋ : ℚ)) +
        (imgCEx.pixelAt (min (⌊(1 / 2 : ℚ)⌋ + 1) (2 - 1))
            (min (⌊(0 : ℚ)⌋ + 1) (1 - 1)) : ℚ) *
          (1 / 2 - (⌊(1 / 2 : ℚ)⌋ : ℚ)) * (0 - (⌊(0 : ℚ)⌋ : ℚ))⌋) ∧
    (∀ cx cy tw th : Nat,
      upscaleSample imgCEx cx cy tw th =
        bilinearInterpolate imgCEx ((cx : ℚ) * imgCEx.width / tw)
          ((cy : ℚ) * imgCEx.height / th) imgCEx.width imgCEx.height) :=
  C4_bilinear_amended imgCEx (1 / 2) 0 2 1 (by norm_num) (by norm_num)

end Senshukai
